import Mathlib

/-!
Shallow embedding of the QuantumSatLink BB84 simulation core
(src/backend/qkd/*.py) and verification of the frozen claims.

Randomness model: Python's `random.random()` draws are modelled by a tape
`Rand.qs` of rationals (each draw stands for a uniform sample in [0,1));
`random.sample`'s position picks are modelled by a tape `Rand.ns` of
naturals.  Every embedded stage threads the tape exactly in the order the
Python code performs its `random` calls, so a statement quantified over all
tapes covers every outcome of the random source.  `random.choice([a,b])`
and `random.randint(0,1)` are one uniform draw mapped through
"first half / second half" of [0,1); `random.uniform(0,t)` is `t * draw`.

Floating point: the Python code manipulates floats; the embedding uses ℚ.
The only transcendental quantity, the distance attenuation
`1 - exp(-scattering_coefficient * distance_km)` of atmosphere.py, is
carried as an explicit nonnegative rational parameter `distance_loss` of
the configuration; no claim depends on its exact value.

Arithmetic: the library's `Rat.add/mul/sub/div` are `@[irreducible]`, which
blocks kernel evaluation of concrete protocol runs.  The embedding
therefore uses the reducible stand-ins `qAdd`, `qMul`, `qSub`, `qDiv`,
`qMin`, `qMax` below; the lemmas `qAdd_eq` … `qMax_eq` prove them equal to
the standard ℚ operations, so symbolic reasoning can switch freely.
-/

deriving instance DecidableEq for Except

namespace QuantumSatLink

/-- Reducible addition on ℚ (equals `a + b`, see `qAdd_eq`). -/
def qAdd (a b : ℚ) : ℚ :=
  Rat.divInt (a.num * (b.den : Int) + b.num * (a.den : Int)) ((a.den : Int) * (b.den : Int))

/-- Reducible multiplication on ℚ (equals `a * b`, see `qMul_eq`). -/
def qMul (a b : ℚ) : ℚ := Rat.divInt (a.num * b.num) ((a.den : Int) * (b.den : Int))

/-- Reducible subtraction on ℚ (equals `a - b`, see `qSub_eq`). -/
def qSub (a b : ℚ) : ℚ :=
  Rat.divInt (a.num * (b.den : Int) - b.num * (a.den : Int)) ((a.den : Int) * (b.den : Int))

/-- Reducible division on ℚ (equals `a / b`, see `qDiv_eq`). -/
def qDiv (a b : ℚ) : ℚ := Rat.divInt (a.num * (b.den : Int)) (b.num * (a.den : Int))

/-- Python's two-argument `min` on ℚ (equals `min a b`, see `qMin_eq`). -/
def qMin (a b : ℚ) : ℚ := if a ≤ b then a else b

/-- Python's two-argument `max` on ℚ (equals `max a b`, see `qMax_eq`). -/
def qMax (a b : ℚ) : ℚ := if a ≤ b then b else a

lemma qAdd_eq (a b : ℚ) : qAdd a b = a + b := by
  have ha : ((a.den : ℚ)) ≠ 0 := by exact_mod_cast a.den_nz
  have hb : ((b.den : ℚ)) ≠ 0 := by exact_mod_cast b.den_nz
  rw [qAdd, Rat.divInt_eq_div]
  push_cast
  conv_rhs => rw [← Rat.num_div_den a, ← Rat.num_div_den b]
  field_simp

lemma qMul_eq (a b : ℚ) : qMul a b = a * b := by
  have ha : ((a.den : ℚ)) ≠ 0 := by exact_mod_cast a.den_nz
  have hb : ((b.den : ℚ)) ≠ 0 := by exact_mod_cast b.den_nz
  rw [qMul, Rat.divInt_eq_div]
  push_cast
  conv_rhs => rw [← Rat.num_div_den a, ← Rat.num_div_den b]
  field_simp

lemma qSub_eq (a b : ℚ) : qSub a b = a - b := by
  have ha : ((a.den : ℚ)) ≠ 0 := by exact_mod_cast a.den_nz
  have hb : ((b.den : ℚ)) ≠ 0 := by exact_mod_cast b.den_nz
  rw [qSub, Rat.divInt_eq_div]
  push_cast
  conv_rhs => rw [← Rat.num_div_den a, ← Rat.num_div_den b]
  field_simp
  ring

lemma qDiv_eq (a b : ℚ) : qDiv a b = a / b := by
  rcases eq_or_ne b 0 with hb | hb
  · subst hb
    simp [qDiv]
  · have ha : ((a.den : ℚ)) ≠ 0 := by exact_mod_cast a.den_nz
    have hbd : ((b.den : ℚ)) ≠ 0 := by exact_mod_cast b.den_nz
    have hbn : ((b.num : ℚ)) ≠ 0 := by exact_mod_cast Rat.num_ne_zero.mpr hb
    rw [qDiv, Rat.divInt_eq_div]
    push_cast
    conv_rhs => rw [← Rat.num_div_den a, ← Rat.num_div_den b]
    field_simp
    exact Or.inl (mul_comm _ _)

lemma qMin_eq (a b : ℚ) : qMin a b = min a b := (min_def a b).symm

lemma qMax_eq (a b : ℚ) : qMax a b = max a b := (max_def a b).symm

/-- Tape of pending random draws: `qs` for `random.random()`-style uniform
draws in [0,1), `ns` for positional picks used by `random.sample`. -/
structure Rand where
  qs : List ℚ
  ns : List Nat
deriving DecidableEq, Repr

/-- Consume one uniform draw (default 0 on an exhausted tape). -/
def drawQ (r : Rand) : ℚ × Rand := (r.qs.headD 0, ⟨r.qs.tail, r.ns⟩)

/-- Consume one positional pick (default 0 on an exhausted tape). -/
def drawN (r : Rand) : Nat × Rand := (r.ns.headD 0, ⟨r.qs, r.ns.tail⟩)

/-- basis.py `BasisType`: the two BB84 bases, rendered `+` and `×`. -/
inductive BasisType where
  | rectilinear
  | diagonal
deriving DecidableEq, Repr

/-- photon.py `PhotonState`: the four polarization states. -/
inductive PhotonState where
  | horizontal
  | vertical
  | diagonal45
  | diagonal135
deriving DecidableEq, Repr

/-- photon.py `Photon`: bit, preparation basis, derived state, and the two
lifecycle flags. -/
structure Photon where
  bit : Nat
  preparation_basis : BasisType
  state : PhotonState
  is_transmitted : Bool
  is_intercepted : Bool
deriving DecidableEq, Repr

/-- photon.py `Photon.create`: encode a bit in a basis. -/
def Photon.create (bit : Nat) (basis : BasisType) : Photon :=
  { bit := bit
    preparation_basis := basis
    state :=
      if basis = BasisType.rectilinear then
        if bit = 0 then PhotonState.horizontal else PhotonState.vertical
      else
        if bit = 0 then PhotonState.diagonal45 else PhotonState.diagonal135
    is_transmitted := true
    is_intercepted := false }

/-- Default photon used only as the out-of-range value of `List.getD`. -/
def defaultPhoton : Photon := Photon.create 0 BasisType.rectilinear

/-- basis.py `QuantumBasis.random_basis`:
`random.choice([RECTILINEAR, DIAGONAL])` from one uniform draw. -/
def random_basis (q : ℚ) : BasisType :=
  if q < Rat.divInt 1 2 then BasisType.rectilinear else BasisType.diagonal

/-- basis.py `QuantumBasis.generate_random_bases`. -/
def generate_random_bases : Nat → Rand → List BasisType × Rand
  | 0, r => ([], r)
  | n + 1, r =>
      let (q, r1) := drawQ r
      let (rest, r2) := generate_random_bases n r1
      (random_basis q :: rest, r2)

/-- bb84.py `_alice_prepare` bit generation:
`random.randint(0, 1)` from one uniform draw, `num_bits` times. -/
def generate_random_bits : Nat → Rand → List Nat × Rand
  | 0, r => ([], r)
  | n + 1, r =>
      let (q, r1) := drawQ r
      let (rest, r2) := generate_random_bits n r1
      ((if q < Rat.divInt 1 2 then 0 else 1) :: rest, r2)

/-- basis.py `QuantumBasis.measure_photon`: one uniform draw `q`.
Matching bases: flip the bit when `q < detector_error` (0.008).
Mismatched bases: `random.choice([0, 1])` from the same draw. -/
def measure_photon (bit : Nat) (preparation_basis measurement_basis : BasisType)
    (q : ℚ) : Nat × Bool :=
  if preparation_basis = measurement_basis then
    (if q < Rat.divInt 8 1000 then 1 - bit else bit, true)
  else
    (if q < Rat.divInt 1 2 then 0 else 1, false)

/-- qber.py `apply_privacy_amplification` shrink factor by QBER band. -/
def shrink_factor_of (qber : ℚ) : ℚ :=
  if qber < 5 then Rat.divInt 9 10
  else if qber < 11 then Rat.divInt 7 10
  else if qber < 15 then Rat.divInt 1 2
  else 0

/-- qber.py `apply_privacy_amplification`: the `qber ≥ 15` branch returns
the empty key, otherwise the first `max 1 (int (len * factor))` bits.
Python's `int` truncation equals `Nat.floor` on the nonnegative product. -/
def apply_privacy_amplification (raw_key : List Nat) (qber : ℚ) : List Nat :=
  if 15 ≤ qber then []
  else raw_key.take (max 1 (Nat.floor (qMul (raw_key.length : ℚ) (shrink_factor_of qber))))

/-- bb84.py `_error_testing` security classification from the QBER. -/
def security_level_of (qber : ℚ) : String :=
  if qber < 5 then "SECURE"
  else if qber < 11 then "ACCEPTABLE"
  else if qber < 15 then "SUSPICIOUS"
  else "ABORT"

/-- bb84.py `_error_testing` safe-to-use flag: `qber < 11.0`. -/
def safe_to_use_of (qber : ℚ) : Bool := decide (qber < 11)

/-- bb84.py `_bits_to_hex` digit rendering: Python's `format(value, 'x')`
for a nibble value (0–15). -/
def hex_digit (v : Nat) : Char :=
  if v < 10 then Char.ofNat (48 + v) else Char.ofNat (87 + v)

/-- bb84.py `_bits_to_hex` inner loop: one hex digit per 4-bit slice,
most-significant bit first (`bit << (3 - j)` weights). -/
def nibble_chars : List Nat → List Char
  | [] => []
  | [a] => [hex_digit (8 * a)]
  | [a, b] => [hex_digit (8 * a + 4 * b)]
  | [a, b, c] => [hex_digit (8 * a + 4 * b + 2 * c)]
  | a :: b :: c :: d :: rest => hex_digit (8 * a + 4 * b + 2 * c + d) :: nibble_chars rest

/-- bb84.py `_bits_to_hex`: right-pad with zeros to a multiple of 4 bits,
then emit one hex digit per nibble. -/
def bits_to_hex (bits : List Nat) : String :=
  if bits = [] then ""
  else
    let padded :=
      if bits.length % 4 ≠ 0 then bits ++ List.replicate (4 - bits.length % 4) 0
      else bits
    String.mk (nibble_chars padded)

/-- Hex digit value, inverse of `hex_digit` (spec side of claim C9). -/
def hex_char_val (c : Char) : Nat :=
  if c.toNat ≤ 57 then c.toNat - 48 else c.toNat - 87

/-- Decode a hex character list back to bits, most-significant bit first
(spec side of claim C9). -/
def hex_decode_chars : List Char → List Nat
  | [] => []
  | c :: cs =>
      let v := hex_char_val c
      v / 8 % 2 :: v / 4 % 2 :: v / 2 % 2 :: v % 2 :: hex_decode_chars cs

/-- Decode a hex string back to bits, most-significant bit first
(spec side of claim C9). -/
def hex_decode (s : String) : List Nat := hex_decode_chars s.data

/-- weather.py `WeatherCondition.LOSS_FACTORS` lookup, together with the
"unknown string falls back to clear" guard at the top of
`apply_weather_effects`. -/
def weather_loss_factor (weather : String) : ℚ :=
  if weather = "clear" then 1
  else if weather = "light_haze" then Rat.divInt 13 10
  else if weather = "heavy_clouds" then Rat.divInt 5 2
  else if weather = "rain" then 10
  else 1

/-- weather.py `apply_weather_effects` per-photon loop: an already-lost
photon (`None`) passes through without a draw; a present photon consumes
one draw and is dropped when the draw is below
`weather_loss_rate - base_loss_rate`.  Returns the attenuated list and the
`photons_lost_to_weather` count. -/
def weather_drop (p : ℚ) : List (Option Nat) → Rand → (List (Option Nat) × Nat) × Rand
  | [], r => (([], 0), r)
  | none :: ps, r =>
      let ((rest, lost), r1) := weather_drop p ps r
      ((none :: rest, lost), r1)
  | some b :: ps, r =>
      let (q, r1) := drawQ r
      let ((rest, lost), r2) := weather_drop p ps r1
      if q < p then ((none :: rest, lost + 1), r2)
      else ((some b :: rest, lost), r2)

/-- weather.py `apply_weather_effects`.  The Python function divides by
`len(photon_states)`; on an empty list that raises `ZeroDivisionError`,
modelled by `Except.error`. -/
def apply_weather_effects (photon_states : List (Option Nat)) (weather : String)
    (r : Rand) : Except String ((List (Option Nat) × Nat) × Rand) :=
  if photon_states.length = 0 then Except.error "ZeroDivisionError"
  else
    let loss_factor := weather_loss_factor weather
    let base_loss_rate :=
      qDiv ((photon_states.countP (fun p => p.isNone) : ℚ)) ((photon_states.length : ℚ))
    let weather_loss_rate := qMin (Rat.divInt 95 100) (qMul base_loss_rate loss_factor)
    Except.ok (weather_drop (qSub weather_loss_rate base_loss_rate) photon_states r)

/-- bb84.py `_apply_weather_effects` write-back: the Python code zips
`bob_received_photons` (the transmitted photons, in order) with the
returned `affected_bits` and clears `is_transmitted` on a photon whose
entry came back `None`.  `merge_weather` reproduces this on the full
photon list: the entries of `affected` are consumed at the transmitted
positions, in order. -/
def merge_weather : List Photon → List (Option Nat) → List Photon
  | [], _ => []
  | p :: ps, aff =>
      if p.is_transmitted then
        match aff with
        | [] => p :: merge_weather ps []
        | a :: rest =>
            (if a.isNone then { p with is_transmitted := false } else p) :: merge_weather ps rest
      else
        p :: merge_weather ps aff

/-- bb84.py `_apply_weather_effects`: extract the received photons' bits
(each photon's `bit` is an `int`, so every extracted entry is present),
run weather attenuation over them, and write the losses back. -/
def apply_weather_effects_stage (photons : List Photon) (weather : String)
    (r : Rand) : Except String ((List Photon × Nat) × Rand) :=
  let received_bits : List (Option Nat) :=
    (photons.filter (fun p => p.is_transmitted)).map (fun p => some p.bit)
  match apply_weather_effects received_bits weather r with
  | Except.error e => Except.error e
  | Except.ok ((affected, lost), r1) =>
      Except.ok ((merge_weather photons affected, lost), r1)

/-- atmosphere.py `AtmosphericChannel.calculate_total_loss`:
`min(0.95, distance_loss + base_loss_rate + uniform(0, turbulence_factor))`
with `base_loss_rate = 0.15` and `turbulence_factor = 0.05`.
`distance_loss` stands for `1 - exp(-scattering_coefficient * distance_km)`
(see the file header); the turbulence sample is `0.05 * draw`. -/
def calculate_total_loss (distance_loss : ℚ) (r : Rand) : ℚ × Rand :=
  let (t, r1) := drawQ r
  (qMin (Rat.divInt 95 100)
    (qAdd (qAdd distance_loss (Rat.divInt 15 100)) (qMul (Rat.divInt 5 100) t)), r1)

/-- atmosphere.py per-photon noise rate:
`0.01 + (distance_km / 2000.0) * 0.02`. -/
def atmospheric_error_rate (distance_km : ℚ) : ℚ :=
  qAdd (Rat.divInt 1 100) (qMul (qDiv distance_km 2000) (Rat.divInt 2 100))

/-- atmosphere.py `transmit_photons` loop: each photon survives when its
draw exceeds the loss probability (`random.random() > loss_probability`);
a survivor is flagged transmitted and its bit flips on a second draw below
the error rate; a lost photon is flagged untransmitted.  The Python
function mutates the photons and returns only the survivors; the embedding
returns the full flagged list, from which the survivor list is recovered
by `filter` (order-preserving, exactly the object-identity index mapping
the driver later rebuilds). -/
def transmit_mark (loss err : ℚ) : List Photon → Rand → List Photon × Rand
  | [], r => ([], r)
  | p :: ps, r =>
      let (q, r1) := drawQ r
      if loss < q then
        let (qe, r2) := drawQ r1
        let p1 := { p with bit := if qe < err then 1 - p.bit else p.bit, is_transmitted := true }
        let (rest, r3) := transmit_mark loss err ps r2
        (p1 :: rest, r3)
      else
        let (rest, r2) := transmit_mark loss err ps r1
        ({ p with is_transmitted := false } :: rest, r2)

/-- atmosphere.py `AtmosphericChannel.transmit_photons`. -/
def transmit_photons (distance_km distance_loss : ℚ) (photons : List Photon)
    (r : Rand) : List Photon × Rand :=
  let (loss, r1) := calculate_total_loss distance_loss r
  transmit_mark loss (atmospheric_error_rate distance_km) photons r1

/-- eve.py `EveAttack.intercept_and_resend`: per photon one draw decides
interception; an intercepted photon costs a basis draw and a measurement
draw (measured against `alice_bases[i]`), and is replaced by a fresh
photon encoded in Eve's basis with the intercepted flag set; otherwise the
photon passes through unchanged and `None` is recorded in `eve_bases`. -/
def intercept_and_resend (interception_rate : ℚ) :
    List Photon → List BasisType → Rand → (List Photon × List (Option BasisType)) × Rand
  | [], _, r => (([], []), r)
  | _ :: _, [], r => (([], []), r)
  | p :: ps, b :: bs, r =>
      let (q, r1) := drawQ r
      if q < interception_rate then
        let (qb, r2) := drawQ r1
        let eve_basis := random_basis qb
        let (qm, r3) := drawQ r2
        let measured_bit := (measure_photon p.bit b eve_basis qm).1
        let new_photon := { Photon.create measured_bit eve_basis with is_intercepted := true }
        let (rest, r4) := intercept_and_resend interception_rate ps bs r3
        ((new_photon :: rest.1, some eve_basis :: rest.2), r4)
      else
        let (rest, r2) := intercept_and_resend interception_rate ps bs r1
        ((p :: rest.1, none :: rest.2), r2)

/-- bb84.py `_eve_intercept`: always performs `intercept_and_resend` at
the configured rate.  The `eve_attack_type` parameter mirrors the stored
but never consulted `self.eve_attack_type` attribute: it does not
influence the result (claim C1). -/
def eve_stage (eve_attack_type : String) (eve_interception_rate : ℚ)
    (photons : List Photon) (alice_bases : List BasisType) (r : Rand) :
    (List Photon × List (Option BasisType)) × Rand :=
  intercept_and_resend eve_interception_rate photons alice_bases r

/-- attacks.py stats dicts: the attack-specific numeric fields (the
constant string fields are omitted). -/
inductive AttackStats where
  | intercept_resend (photons_intercepted errors_introduced : Nat)
  | beam_splitting (photons_tapped : Nat)
  | photon_number_splitting (exploited errors : Nat)
  | detector_blinding (detectors_blinded fake_signals : Nat)
  | jammed_link (noise_photons : Nat)
deriving DecidableEq, Repr

/-- attacks.py `apply_intercept_resend_attack` loop (parameter order
adapted for structural recursion): result list plus the `intercepted` and
`errors_introduced` counters. -/
def intercept_resend_aux (interception_rate : ℚ) :
    List (Option Nat) → List String → Rand → (List (Option Nat) × Nat × Nat) × Rand
  | [], _, r => (([], 0, 0), r)
  | _ :: _, [], r => (([], 0, 0), r)
  | none :: ps, _ :: bs, r =>
      let (rest, r1) := intercept_resend_aux interception_rate ps bs r
      ((none :: rest.1, rest.2), r1)
  | some bit :: ps, b :: bs, r =>
      let (q, r1) := drawQ r
      if q < interception_rate then
        let (qb, r2) := drawQ r1
        let eve_basis := if qb < Rat.divInt 1 2 then "+" else "x"
        if eve_basis ≠ b then
          let (qf, r3) := drawQ r2
          let (rest, r4) := intercept_resend_aux interception_rate ps bs r3
          if qf < Rat.divInt 1 2 then
            ((some (1 - bit) :: rest.1, rest.2.1 + 1, rest.2.2 + 1), r4)
          else ((some bit :: rest.1, rest.2.1 + 1, rest.2.2), r4)
        else
          let (rest, r3) := intercept_resend_aux interception_rate ps bs r2
          ((some bit :: rest.1, rest.2.1 + 1, rest.2.2), r3)
      else
        let (rest, r2) := intercept_resend_aux interception_rate ps bs r1
        ((some bit :: rest.1, rest.2), r2)

/-- attacks.py `apply_intercept_resend_attack`. -/
def apply_intercept_resend_attack (photon_states : List (Option Nat)) (bases : List String)
    (interception_rate : ℚ) (r : Rand) : (List (Option Nat) × AttackStats) × Rand :=
  let (res, r1) := intercept_resend_aux interception_rate photon_states bases r
  ((res.1, AttackStats.intercept_resend res.2.1 res.2.2), r1)

/-- attacks.py `apply_beam_splitting_attack` loop. -/
def beam_splitting_aux (tap_rate : ℚ) :
    List (Option Nat) → Rand → (List (Option Nat) × Nat) × Rand
  | [], r => (([], 0), r)
  | none :: ps, r =>
      let (rest, r1) := beam_splitting_aux tap_rate ps r
      ((none :: rest.1, rest.2), r1)
  | some bit :: ps, r =>
      let (q, r1) := drawQ r
      let (rest, r2) := beam_splitting_aux tap_rate ps r1
      if q < tap_rate then ((none :: rest.1, rest.2 + 1), r2)
      else ((some bit :: rest.1, rest.2), r2)

/-- attacks.py `apply_beam_splitting_attack`. -/
def apply_beam_splitting_attack (photon_states : List (Option Nat)) (tap_rate : ℚ)
    (r : Rand) : (List (Option Nat) × AttackStats) × Rand :=
  let (res, r1) := beam_splitting_aux tap_rate photon_states r
  ((res.1, AttackStats.beam_splitting res.2), r1)

/-- attacks.py `apply_pns_attack` loop. -/
def pns_aux (multi_photon_rate : ℚ) :
    List (Option Nat) → List String → Rand → (List (Option Nat) × Nat × Nat) × Rand
  | [], _, r => (([], 0, 0), r)
  | _ :: _, [], r => (([], 0, 0), r)
  | none :: ps, _ :: bs, r =>
      let (rest, r1) := pns_aux multi_photon_rate ps bs r
      ((none :: rest.1, rest.2), r1)
  | some bit :: ps, b :: bs, r =>
      let (q, r1) := drawQ r
      if q < multi_photon_rate then
        let (qb, r2) := drawQ r1
        let eve_basis := if qb < Rat.divInt 1 2 then "+" else "x"
        if eve_basis ≠ b then
          let (qf, r3) := drawQ r2
          let (rest, r4) := pns_aux multi_photon_rate ps bs r3
          if qf < Rat.divInt 1 10 then
            ((some (1 - bit) :: rest.1, rest.2.1 + 1, rest.2.2 + 1), r4)
          else ((some bit :: rest.1, rest.2.1 + 1, rest.2.2), r4)
        else
          let (rest, r3) := pns_aux multi_photon_rate ps bs r2
          ((some bit :: rest.1, rest.2.1 + 1, rest.2.2), r3)
      else
        let (rest, r2) := pns_aux multi_photon_rate ps bs r1
        ((some bit :: rest.1, rest.2), r2)

/-- attacks.py `apply_pns_attack`. -/
def apply_pns_attack (photon_states : List (Option Nat)) (bases : List String)
    (multi_photon_rate : ℚ) (r : Rand) : (List (Option Nat) × AttackStats) × Rand :=
  let (res, r1) := pns_aux multi_photon_rate photon_states bases r
  ((res.1, AttackStats.photon_number_splitting res.2.1 res.2.2), r1)

/-- attacks.py `apply_detector_blinding_attack` loop (the fake bit is
`random.randint(0, 1)`). -/
def detector_blinding_aux (blind_rate : ℚ) :
    List (Option Nat) → Rand → (List (Option Nat) × Nat × Nat) × Rand
  | [], r => (([], 0, 0), r)
  | none :: ps, r =>
      let (rest, r1) := detector_blinding_aux blind_rate ps r
      ((none :: rest.1, rest.2), r1)
  | some bit :: ps, r =>
      let (q, r1) := drawQ r
      if q < blind_rate then
        let (qf, r2) := drawQ r1
        let fake_bit : Nat := if qf < Rat.divInt 1 2 then 0 else 1
        let (rest, r3) := detector_blinding_aux blind_rate ps r2
        ((some fake_bit :: rest.1, rest.2.1 + 1, rest.2.2 + 1), r3)
      else
        let (rest, r2) := detector_blinding_aux blind_rate ps r1
        ((some bit :: rest.1, rest.2), r2)

/-- attacks.py `apply_detector_blinding_attack`. -/
def apply_detector_blinding_attack (photon_states : List (Option Nat)) (bases : List String)
    (blind_rate : ℚ) (r : Rand) : (List (Option Nat) × AttackStats) × Rand :=
  let (res, r1) := detector_blinding_aux blind_rate photon_states r
  ((res.1, AttackStats.detector_blinding res.2.1 res.2.2), r1)

/-- attacks.py `apply_jammed_link_attack` loop: a present photon is lost
on a draw below 0.6; a survivor's bit flips on a second draw below 0.5. -/
def jammed_link_aux :
    List (Option Nat) → Rand → (List (Option Nat) × Nat) × Rand
  | [], r => (([], 0), r)
  | none :: ps, r =>
      let (rest, r1) := jammed_link_aux ps r
      ((none :: rest.1, rest.2), r1)
  | some bit :: ps, r =>
      let (q, r1) := drawQ r
      if q < Rat.divInt 6 10 then
        let (rest, r2) := jammed_link_aux ps r1
        ((none :: rest.1, rest.2 + 1), r2)
      else
        let (qf, r2) := drawQ r1
        let (rest, r3) := jammed_link_aux ps r2
        if qf < Rat.divInt 1 2 then ((some (1 - bit) :: rest.1, rest.2), r3)
        else ((some bit :: rest.1, rest.2), r3)

/-- attacks.py `apply_jammed_link_attack`. -/
def apply_jammed_link_attack (photon_states : List (Option Nat)) (r : Rand) :
    (List (Option Nat) × AttackStats) × Rand :=
  let (res, r1) := jammed_link_aux photon_states r
  ((res.1, AttackStats.jammed_link res.2), r1)

/-- attacks.py `apply_eve_attack`: dispatch on the attack-type string,
defaulting to intercept-resend. -/
def apply_eve_attack (photon_states : List (Option Nat)) (bases : List String)
    (attack_type : String) (intensity : ℚ) (r : Rand) :
    (List (Option Nat) × AttackStats) × Rand :=
  if attack_type = "intercept_resend" then
    apply_intercept_resend_attack photon_states bases intensity r
  else if attack_type = "beam_splitting" then
    apply_beam_splitting_attack photon_states (qMul intensity (Rat.divInt 6 10)) r
  else if attack_type = "photon_number_splitting" then
    apply_pns_attack photon_states bases (Rat.divInt 15 100) r
  else if attack_type = "detector_blinding" then
    apply_detector_blinding_attack photon_states bases (qMul intensity (Rat.divInt 8 10)) r
  else if attack_type = "jammed_link" then
    apply_jammed_link_attack photon_states r
  else
    apply_intercept_resend_attack photon_states bases intensity r

/-- qber.py `random.sample(matching_indices, test_sample_size)`: a sample
without replacement, modelled by repeatedly removing the position named by
the next tape pick (taken modulo the remaining length).  A uniform tape
yields a uniform sample without replacement. -/
def sample_without_replacement : Nat → List Nat → Rand → List Nat × Rand
  | 0, _, r => ([], r)
  | _ + 1, [], r => ([], r)
  | k + 1, x :: xs, r =>
      let l := x :: xs
      let i := (drawN r).1 % l.length
      let rest := sample_without_replacement k (l.take i ++ l.drop (i + 1)) (drawN r).2
      (l.getD i 0 :: rest.1, rest.2)

/-- qber.py `calculate_qber` with the default `test_sample_size = None`:
empty matching indices return `(0.0, [], 0, 0)`; otherwise the sample size
is `max(10, len // 2)` clamped to `len`, errors are counted on the tested
indices, and a zero-error result is floored at `max(0.5, 100/size)`. -/
def calculate_qber (alice_bits bob_bits : List Nat) (matching_indices : List Nat)
    (r : Rand) : (ℚ × List Nat × Nat × Nat) × Rand :=
  if matching_indices = [] then ((0, [], 0, 0), r)
  else
    let test_sample_size := min (max 10 (matching_indices.length / 2)) matching_indices.length
    let (tested_indices, r1) := sample_without_replacement test_sample_size matching_indices r
    let errors := tested_indices.countP (fun idx => alice_bits.getD idx 0 != bob_bits.getD idx 0)
    let qber :=
      if errors = 0 ∧ 0 < test_sample_size then
        let q0 := qDiv 100 (test_sample_size : ℚ)
        if q0 < Rat.divInt 1 2 then Rat.divInt 1 2 else q0
      else if 0 < test_sample_size then qMul (qDiv (errors : ℚ) (test_sample_size : ℚ)) 100
      else 0
    ((qber, tested_indices, errors, test_sample_size), r1)

/-- bb84.py `_bob_measure`: Bob walks `bob_received_photons` in order,
skips photons whose `is_transmitted` flag was cleared (the id-dict lookup
returns nothing for them), and writes each surviving photon's measurement
at its original index.  The embedding walks the full flagged photon list
in original order, which performs exactly that write-back: entry `i` of
the result is the measurement of photon `i` when it is still transmitted
and `⊥` otherwise. -/
def bob_measure : List Photon → List BasisType → Rand → List (Option Nat) × Rand
  | [], _, r => ([], r)
  | _ :: _, [], r => ([], r)
  | p :: ps, b :: bs, r =>
      if p.is_transmitted then
        let (q, r1) := drawQ r
        let m := (measure_photon p.bit p.preparation_basis b q).1
        let (rest, r2) := bob_measure ps bs r1
        (some m :: rest, r2)
      else
        let (rest, r1) := bob_measure ps bs r
        (none :: rest, r1)

/-- bb84.py `BB84Protocol.__init__` configuration (the fields the
simulation consults; `time_of_day` and `telescope_aperture_cm` are
accepted and reported but never used numerically).  `distance_loss`
additionally carries the value of the transcendental distance attenuation
(see the file header). -/
structure Config where
  num_bits : Nat
  eve_active : Bool
  eve_interception_rate : ℚ
  eve_attack_type : String
  distance_km : ℚ
  distance_loss : ℚ
  weather : String
deriving DecidableEq, Repr

/-- bb84.py `_generate_trace` output bundle (the fields the claims are
about; the rounded percentage fields and the constant strings are
omitted). -/
structure Trace where
  alice_bits : List Nat
  alice_bases : List BasisType
  bob_bases : List BasisType
  bob_bits : List (Option Nat)
  matching_indices : List Nat
  sifted_key : List Nat
  final_key : List Nat
  final_key_hex : String
  photons_received : Nat
  qber : ℚ
  errors_detected : Nat
  bits_tested : Nat
  tested_indices : List Nat
  security_level : String
  safe_to_use_key : Bool
deriving DecidableEq, Repr

/-- bb84.py `run_protocol`, steps 4–7 and trace assembly (everything after
the weather stage, which is the only fallible stage): measure → sift →
qber → amplify → `_generate_trace`. -/
def post_weather_trace (n : Nat) (alice_bits : List Nat) (alice_bases : List BasisType)
    (photons_received : Nat) (after_weather : List Photon) (r5 : Rand) : Trace :=
  let pbob := generate_random_bases n r5
  let bob_bases := pbob.1
  let pmeas := bob_measure after_weather bob_bases pbob.2
  let bob_bits := pmeas.1
  let matching_indices := (List.range n).filter
    (fun i => (bob_bits.getD i none).isSome &&
      (alice_bases.getD i BasisType.rectilinear == bob_bases.getD i BasisType.rectilinear))
  let sifted_key := matching_indices.map (fun i => (bob_bits.getD i none).getD 0)
  let alice_sifted := matching_indices.map (fun i => alice_bits.getD i 0)
  let pq := calculate_qber alice_sifted sifted_key (List.range matching_indices.length) pmeas.2
  let qber := pq.1.1
  let tested_indices := pq.1.2.1.map (fun i => matching_indices.getD i 0)
  let alice_untested := (List.range sifted_key.length).filterMap
    (fun i => if matching_indices.getD i 0 ∈ tested_indices then none
              else some (alice_bits.getD (matching_indices.getD i 0) 0))
  let final_key := apply_privacy_amplification alice_untested qber
  { alice_bits := alice_bits
    alice_bases := alice_bases
    bob_bases := bob_bases
    bob_bits := bob_bits
    matching_indices := matching_indices
    sifted_key := sifted_key
    final_key := final_key
    final_key_hex := bits_to_hex final_key
    photons_received := photons_received
    qber := qber
    errors_detected := pq.1.2.2.1
    bits_tested := pq.1.2.2.2
    tested_indices := tested_indices
    security_level := security_level_of qber
    safe_to_use_key := safe_to_use_of qber }

/-- bb84.py `BB84Protocol.run_protocol`: the full pipeline
prepare → eve → atmosphere → weather → measure → sift → qber → amplify,
with the weather stage's possible `ZeroDivisionError` propagated as
`Except.error`. -/
def run_protocol (cfg : Config) (r0 : Rand) : Except String Trace :=
  let n := cfg.num_bits
  let pbits := generate_random_bits n r0
  let alice_bits := pbits.1
  let pbases := generate_random_bases n pbits.2
  let alice_bases := pbases.1
  let photons0 := List.zipWith Photon.create alice_bits alice_bases
  let peve :=
    if cfg.eve_active then
      let e := eve_stage cfg.eve_attack_type cfg.eve_interception_rate photons0 alice_bases pbases.2
      (e.1.1, e.2)
    else (photons0, pbases.2)
  let ptrans := transmit_photons cfg.distance_km cfg.distance_loss peve.1 peve.2
  let marked := ptrans.1
  let photons_received := (marked.filter (fun p => p.is_transmitted)).length
  Except.map
    (fun paw => post_weather_trace n alice_bits alice_bases photons_received paw.1.1 paw.2)
    (apply_weather_effects_stage marked cfg.weather ptrans.2)

example : bits_to_hex [1, 0, 1, 1] = "b" := by decide
example : hex_decode "b" = [1, 0, 1, 1] := by decide
example : bits_to_hex [1, 0, 1, 1, 1] = "b8" := by decide
example : apply_privacy_amplification [1, 0, 1, 1] 0 = [1, 0, 1] := by decide
example : apply_privacy_amplification [] 0 = [] := by decide
example : measure_photon 1 BasisType.rectilinear BasisType.rectilinear (Rat.divInt 1 200) =
    (0, true) := by decide
example : security_level_of (Rat.divInt 25 2) = "SUSPICIOUS" := by decide

lemma map_eq_ok {α β : Type} {f : α → β} {x : Except String α} {t : β}
    (h : x.map f = Except.ok t) : ∃ a, x = Except.ok a ∧ t = f a := by
  cases x with
  | error e => simp [Except.map] at h
  | ok a =>
      simp [Except.map] at h
      exact ⟨a, rfl, h.symm⟩

/-- Every trace a successful run emits classifies security and the
safe-to-use flag from its own (unrounded) QBER field. -/
lemma run_ok_fields (cfg : Config) (r : Rand) (t : Trace)
    (h : run_protocol cfg r = Except.ok t) :
    t.security_level = security_level_of t.qber ∧
      t.safe_to_use_key = safe_to_use_of t.qber := by
  unfold run_protocol at h
  obtain ⟨paw, _, rfl⟩ := map_eq_ok h
  exact ⟨rfl, rfl⟩

lemma safe_iff (q : ℚ) : safe_to_use_of q = true ↔ q < 11 := by
  simp [safe_to_use_of]

lemma security_level_table (q : ℚ) :
    (security_level_of q = "SECURE" ↔ q < 5) ∧
    (security_level_of q = "ACCEPTABLE" ↔ 5 ≤ q ∧ q < 11) ∧
    (security_level_of q = "SUSPICIOUS" ↔ 11 ≤ q ∧ q < 15) ∧
    (security_level_of q = "ABORT" ↔ 15 ≤ q) := by
  rcases lt_or_le q 5 with h5 | h5
  · have e : security_level_of q = "SECURE" := by simp [security_level_of, h5]
    rw [e]
    refine ⟨iff_of_true rfl h5, ?_, ?_, ?_⟩
    · exact iff_of_false (by decide) (fun hc => absurd hc.1 (not_le.mpr h5))
    · exact iff_of_false (by decide) (fun hc => absurd hc.1 (by linarith))
    · exact iff_of_false (by decide) (fun hc => by linarith)
  · rcases lt_or_le q 11 with h11 | h11
    · have e : security_level_of q = "ACCEPTABLE" := by
        simp [security_level_of, h11, not_lt.mpr h5]
      rw [e]
      refine ⟨?_, iff_of_true rfl ⟨h5, h11⟩, ?_, ?_⟩
      · exact iff_of_false (by decide) (fun hc => absurd hc (not_lt.mpr h5))
      · exact iff_of_false (by decide) (fun hc => absurd hc.1 (not_le.mpr h11))
      · exact iff_of_false (by decide) (fun hc => by linarith)
    · rcases lt_or_le q 15 with h15 | h15
      · have e : security_level_of q = "SUSPICIOUS" := by
          simp [security_level_of, h15, not_lt.mpr h5, not_lt.mpr h11]
        rw [e]
        refine ⟨?_, ?_, iff_of_true rfl ⟨h11, h15⟩, ?_⟩
        · exact iff_of_false (by decide) (fun hc => by linarith)
        · exact iff_of_false (by decide) (fun hc => absurd hc.2 (not_lt.mpr h11))
        · exact iff_of_false (by decide) (fun hc => by linarith)
      · have e : security_level_of q = "ABORT" := by
          simp [security_level_of, not_lt.mpr h5, not_lt.mpr h11, not_lt.mpr h15]
        rw [e]
        refine ⟨?_, ?_, ?_, iff_of_true rfl h15⟩
        · exact iff_of_false (by decide) (fun hc => by linarith)
        · exact iff_of_false (by decide) (fun hc => by linarith [hc.2])
        · exact iff_of_false (by decide) (fun hc => by linarith [hc.2])

/-- Claim C6: in every trace a run emits, the security level is the
QBER-band classification (SECURE below 5, ACCEPTABLE in [5,11),
SUSPICIOUS in [11,15), ABORT at and above 15) and the safe-to-use flag
holds exactly below 11. -/
theorem claim_C6_security_classification (cfg : Config) (r : Rand) (t : Trace)
    (h : run_protocol cfg r = Except.ok t) :
    ((t.security_level = "SECURE" ↔ t.qber < 5) ∧
     (t.security_level = "ACCEPTABLE" ↔ 5 ≤ t.qber ∧ t.qber < 11) ∧
     (t.security_level = "SUSPICIOUS" ↔ 11 ≤ t.qber ∧ t.qber < 15) ∧
     (t.security_level = "ABORT" ↔ 15 ≤ t.qber)) ∧
    (t.safe_to_use_key = true ↔ t.qber < 11) := by
  obtain ⟨h1, h2⟩ := run_ok_fields cfg r t h
  rw [h1, h2]
  exact ⟨security_level_table t.qber, safe_iff t.qber⟩

/-- Concrete 1-photon configuration used to witness claim C6. -/
def cfgC6 : Config :=
  { num_bits := 1
    eve_active := false
    eve_interception_rate := Rat.divInt 1 2
    eve_attack_type := "intercept_resend"
    distance_km := 500
    distance_loss := 0
    weather := "clear" }

/-- Tape for the claim C6 witness run: every uniform draw is 0.99. -/
def randC6 : Rand := ⟨List.replicate 10 (Rat.divInt 99 100), [0]⟩

/-- Trace produced by the claim C6 witness run. -/
def traceC6 : Trace :=
  { alice_bits := [1]
    alice_bases := [BasisType.diagonal]
    bob_bases := [BasisType.diagonal]
    bob_bits := [some 1]
    matching_indices := [0]
    sifted_key := [1]
    final_key := []
    final_key_hex := ""
    photons_received := 1
    qber := 100
    errors_detected := 0
    bits_tested := 1
    tested_indices := [0]
    security_level := "ABORT"
    safe_to_use_key := false }

theorem claim_C6_security_classification_witness :
    (traceC6.security_level = "ABORT" ↔ 15 ≤ traceC6.qber) ∧
      (traceC6.safe_to_use_key = true ↔ traceC6.qber < 11) := by
  have h := claim_C6_security_classification cfgC6 randC6 traceC6 (by decide)
  exact ⟨h.1.2.2.2, h.2⟩

/-- Claim C8: measurement with matching bases returns the prepared bit
flagged `true`, flipped exactly on the draws below the detector error
0.008 (so with probability 0.008 for a uniform draw); with mismatched
bases it returns the draw's uniform coin flagged `false`. -/
theorem claim_C8_measure_photon (bit : Nat) (p m : BasisType) (q : ℚ) :
    (p = m →
      measure_photon bit p m q = (if q < Rat.divInt 8 1000 then 1 - bit else bit, true) ∧
      ((measure_photon bit p m q).1 = 1 - bit ↔ q < Rat.divInt 8 1000) ∧
      ((measure_photon bit p m q).1 = bit ↔ ¬ q < Rat.divInt 8 1000)) ∧
    (p ≠ m →
      measure_photon bit p m q = (if q < Rat.divInt 1 2 then 0 else 1, false)) := by
  constructor
  · intro hpm
    have hne : 1 - bit ≠ bit := by omega
    refine ⟨by simp [measure_photon, hpm], ?_, ?_⟩
    · by_cases hq : q < Rat.divInt 8 1000
      · simp [measure_photon, hpm, hq]
      · simp [measure_photon, hpm, hq, hne.symm]
    · by_cases hq : q < Rat.divInt 8 1000
      · simp [measure_photon, hpm, hq, hne]
      · simp [measure_photon, hpm, hq]
  · intro hpm
    simp [measure_photon, hpm]

theorem claim_C8_measure_photon_witness :
    measure_photon 0 BasisType.rectilinear BasisType.rectilinear (Rat.divInt 1 200) = (1, true) ∧
      measure_photon 0 BasisType.rectilinear BasisType.diagonal (Rat.divInt 3 4) = (1, false) := by
  have h1 := (claim_C8_measure_photon 0 BasisType.rectilinear BasisType.rectilinear
    (Rat.divInt 1 200)).1 rfl
  have h2 := (claim_C8_measure_photon 0 BasisType.rectilinear BasisType.diagonal
    (Rat.divInt 3 4)).2 (by decide)
  refine ⟨?_, ?_⟩
  · rw [h1.1]
    decide
  · rw [h2]
    decide

/-- Claim C4 counterexample: on the empty key with QBER 0 the shrink
factor is 0.9 > 0, the claimed output length `max 1 ⌊0 · 0.9⌋ = 1`, but
the code returns the empty key (Python's slice clamps), length 0. -/
theorem claim_C4_counterexample :
    ¬ ((apply_privacy_amplification [] 0).length =
        max 1 (Nat.floor (qMul ((([] : List Nat).length : Nat) : ℚ) (shrink_factor_of 0)))) := by
  decide

lemma shrink_factor_bounds (q : ℚ) : 0 ≤ shrink_factor_of q ∧ shrink_factor_of q ≤ 1 := by
  unfold shrink_factor_of
  split_ifs <;> constructor <;> decide

lemma floor_mul_factor_le (len : Nat) (f : ℚ) (h1 : f ≤ 1) :
    Nat.floor (qMul (len : ℚ) f) ≤ len := by
  rw [qMul_eq]
  calc Nat.floor ((len : ℚ) * f) ≤ Nat.floor ((len : ℚ)) :=
        Nat.floor_le_floor (mul_le_of_le_one_right (Nat.cast_nonneg len) h1)
    _ = len := Nat.floor_natCast len

/-- Claim C4 (amended): privacy amplification returns the empty key for
QBER ≥ 15 and otherwise the first `max 1 ⌊len · factor⌋` bits of the key,
with factor 0.9 / 0.7 / 0.5 by band; the output length equals
`max 1 ⌊len · factor⌋` whenever the factor is positive and the key is
non-empty (on the empty key the output is empty, length 0). -/
theorem claim_C4_privacy_amplification (raw_key : List Nat) (qber : ℚ) :
    (15 ≤ qber → apply_privacy_amplification raw_key qber = []) ∧
    (qber < 15 → apply_privacy_amplification raw_key qber =
      raw_key.take (max 1 (Nat.floor (qMul (raw_key.length : ℚ) (shrink_factor_of qber))))) ∧
    (qber < 15 → raw_key ≠ [] → (apply_privacy_amplification raw_key qber).length =
      max 1 (Nat.floor (qMul (raw_key.length : ℚ) (shrink_factor_of qber)))) ∧
    (qber < 5 → shrink_factor_of qber = Rat.divInt 9 10) ∧
    (5 ≤ qber → qber < 11 → shrink_factor_of qber = Rat.divInt 7 10) ∧
    (11 ≤ qber → qber < 15 → shrink_factor_of qber = Rat.divInt 1 2) ∧
    (15 ≤ qber → shrink_factor_of qber = 0) := by
  refine ⟨?_, ?_, ?_, ?_, ?_, ?_, ?_⟩
  · intro h
    simp [apply_privacy_amplification, h]
  · intro h
    simp [apply_privacy_amplification, not_le.mpr h]
  · intro h hne
    have hlen : 1 ≤ raw_key.length := List.length_pos.mpr hne
    have hfle : Nat.floor (qMul (raw_key.length : ℚ) (shrink_factor_of qber)) ≤ raw_key.length :=
      floor_mul_factor_le raw_key.length (shrink_factor_of qber) (shrink_factor_bounds qber).2
    simp only [apply_privacy_amplification, if_neg (not_le.mpr h), List.length_take]
    omega
  · intro h
    simp [shrink_factor_of, h]
  · intro h5 h11
    simp [shrink_factor_of, h11, not_lt.mpr h5]
  · intro h11 h15
    simp [shrink_factor_of, h15, not_lt.mpr h11, not_lt.mpr (by linarith : (5:ℚ) ≤ qber)]
  · intro h
    simp [shrink_factor_of, not_lt.mpr h, not_lt.mpr (by linarith : (5:ℚ) ≤ qber),
      not_lt.mpr (by linarith : (11:ℚ) ≤ qber)]

theorem claim_C4_privacy_amplification_witness :
    (apply_privacy_amplification [1, 0, 1, 1] 0).length = 3 ∧
      apply_privacy_amplification [1, 1, 0, 0] 20 = [] := by
  have h1 := (claim_C4_privacy_amplification [1, 0, 1, 1] 0).2.2.1 (by decide) (by decide)
  have h2 := (claim_C4_privacy_amplification [1, 1, 0, 0] 20).1 (by decide)
  refine ⟨?_, h2⟩
  rw [h1]
  decide

lemma nibble_roundtrip (a b c d : Nat) (ha : a ≤ 1) (hb : b ≤ 1) (hc : c ≤ 1) (hd : d ≤ 1) :
    hex_decode_chars [hex_digit (8 * a + 4 * b + 2 * c + d)] = [a, b, c, d] := by
  interval_cases a <;> interval_cases b <;> interval_cases c <;> interval_cases d <;> decide

lemma hex_decode_chars_cons (c : Char) (cs : List Char) :
    hex_decode_chars (c :: cs) = hex_decode_chars [c] ++ hex_decode_chars cs := by
  simp [hex_decode_chars]

lemma roundtrip_chunks : ∀ (bits : List Nat), (∀ x ∈ bits, x ≤ 1) → bits.length % 4 = 0 →
    hex_decode_chars (nibble_chars bits) = bits
  | [], _, _ => rfl
  | [_], _, h => by simp at h
  | [_, _], _, h => by simp at h
  | [_, _, _], _, h => by simp at h
  | a :: b :: c :: d :: rest, hb, hl => by
      have hr : rest.length % 4 = 0 := by
        simp only [List.length_cons] at hl
        omega
      have ih := roundtrip_chunks rest (fun x hx => hb x (by simp [hx])) hr
      have h4 := nibble_roundtrip a b c d (hb a (by simp)) (hb b (by simp)) (hb c (by simp))
        (hb d (by simp))
      rw [nibble_chars, hex_decode_chars_cons, h4, ih]
      rfl

/-- Claim C9: `bits_to_hex` right-pads with zeros to a multiple of 4 and
emits one hex digit per nibble, most-significant bit first; it is a
function of its input (any two equal inputs give equal output), and for a
bit list whose length is a multiple of 4, decoding the hex string
MSB-first returns exactly the original bits. -/
theorem claim_C9_hex_roundtrip (bits : List Nat) (hb : ∀ x ∈ bits, x ≤ 1)
    (hl : bits.length % 4 = 0) :
    hex_decode (bits_to_hex bits) = bits ∧
      (∀ other : List Nat, other = bits → bits_to_hex other = bits_to_hex bits) := by
  refine ⟨?_, fun other h => by rw [h]⟩
  rcases eq_or_ne bits [] with hnil | hnil
  · subst hnil
    decide
  · have hpad : (if bits.length % 4 ≠ 0 then bits ++ List.replicate (4 - bits.length % 4) 0
        else bits) = bits := by
      simp [hl]
    rw [bits_to_hex, if_neg hnil, hpad]
    show hex_decode_chars (nibble_chars bits) = bits
    exact roundtrip_chunks bits hb hl

theorem claim_C9_hex_roundtrip_witness :
    hex_decode (bits_to_hex [1, 0, 1, 1, 0, 0, 1, 0]) = [1, 0, 1, 1, 0, 0, 1, 0] :=
  (claim_C9_hex_roundtrip [1, 0, 1, 1, 0, 0, 1, 0] (by decide) (by decide)).1

lemma pick_perm : ∀ (l : List Nat) (i : Nat), i < l.length →
    List.Perm (l.getD i 0 :: (l.take i ++ l.drop (i + 1))) l
  | [], i, hi => absurd hi (by simp)
  | x :: xs, 0, _ => by simp
  | x :: xs, i + 1, hi => by
      have ih := pick_perm xs i (by simpa using hi)
      have hswap : List.Perm (xs.getD i 0 :: x :: (xs.take i ++ xs.drop (i + 1)))
          (x :: xs.getD i 0 :: (xs.take i ++ xs.drop (i + 1))) :=
        List.Perm.swap x (xs.getD i 0) _
      simpa using hswap.trans (List.Perm.cons x ih)

lemma erased_length (l : List Nat) (i : Nat) (hi : i < l.length) :
    (l.take i ++ l.drop (i + 1)).length = l.length - 1 := by
  simp only [List.length_append, List.length_take, List.length_drop]
  omega

lemma sample_spec : ∀ (k : Nat) (l : List Nat) (r : Rand),
    (sample_without_replacement k l r).1.length = min k l.length ∧
      (sample_without_replacement k l r).1.Subperm l
  | 0, l, r => by simp [sample_without_replacement, List.nil_subperm]
  | k + 1, [], r => by simp [sample_without_replacement, List.nil_subperm]
  | k + 1, x :: xs, r => by
      have hlen : 0 < (x :: xs).length := by simp
      have hi : (drawN r).1 % (x :: xs).length < (x :: xs).length := Nat.mod_lt _ hlen
      have ih := sample_spec k
        ((x :: xs).take ((drawN r).1 % (x :: xs).length) ++
          (x :: xs).drop ((drawN r).1 % (x :: xs).length + 1)) (drawN r).2
      have hperm := pick_perm (x :: xs) ((drawN r).1 % (x :: xs).length) hi
      have hel := erased_length (x :: xs) ((drawN r).1 % (x :: xs).length) hi
      have hunfold : sample_without_replacement (k + 1) (x :: xs) r =
          ((x :: xs).getD ((drawN r).1 % (x :: xs).length) 0 ::
            (sample_without_replacement k
              ((x :: xs).take ((drawN r).1 % (x :: xs).length) ++
                (x :: xs).drop ((drawN r).1 % (x :: xs).length + 1)) (drawN r).2).1,
           (sample_without_replacement k
              ((x :: xs).take ((drawN r).1 % (x :: xs).length) ++
                (x :: xs).drop ((drawN r).1 % (x :: xs).length + 1)) (drawN r).2).2) := rfl
      rw [hunfold]
      constructor
      · rw [List.length_cons, ih.1, hel]
        omega
      · have hcons := (List.subperm_cons
          ((x :: xs).getD ((drawN r).1 % (x :: xs).length) 0)).mpr ih.2
        exact hcons.trans hperm.subperm

/-- Claim C5: qber estimation with an empty matching list returns QBER 0,
no tested indices, zero errors; otherwise the sample size is
`min (max 10 ⌊m/2⌋) m`, the tested indices are a without-replacement
sample of that size from the matching indices, the error count is the
number of tested positions where sender and measured bits differ, and the
QBER is `(errors / size) · 100`, forced to `max(0.5, 100/size)` when no
error was seen. -/
theorem claim_C5_qber_estimation (alice bob : List Nat) (matching : List Nat) (r : Rand) :
    (matching = [] → calculate_qber alice bob matching r = ((0, [], 0, 0), r)) ∧
    (matching ≠ [] →
      (calculate_qber alice bob matching r).1.2.2.2 =
          min (max 10 (matching.length / 2)) matching.length ∧
      (calculate_qber alice bob matching r).1.2.1.length =
          (calculate_qber alice bob matching r).1.2.2.2 ∧
      (calculate_qber alice bob matching r).1.2.1.Subperm matching ∧
      (calculate_qber alice bob matching r).1.2.2.1 =
        ((calculate_qber alice bob matching r).1.2.1.filter
          (fun idx => alice.getD idx 0 != bob.getD idx 0)).length ∧
      ((calculate_qber alice bob matching r).1.2.2.1 = 0 →
        (calculate_qber alice bob matching r).1.1 =
          max (Rat.divInt 1 2) (100 / ((calculate_qber alice bob matching r).1.2.2.2 : ℚ))) ∧
      ((calculate_qber alice bob matching r).1.2.2.1 ≠ 0 →
        (calculate_qber alice bob matching r).1.1 =
          ((calculate_qber alice bob matching r).1.2.2.1 : ℚ) /
            ((calculate_qber alice bob matching r).1.2.2.2 : ℚ) * 100)) := by
  constructor
  · intro he
    simp [calculate_qber, he]
  · intro hne
    have hm : 0 < matching.length := List.length_pos.mpr hne
    have hsize : 0 < min (max 10 (matching.length / 2)) matching.length := by omega
    have hs := sample_spec (min (max 10 (matching.length / 2)) matching.length) matching r
    simp only [calculate_qber, if_neg hne]
    refine ⟨trivial, ?_, ?_, ?_, ?_, ?_⟩
    · rw [hs.1]
      exact min_eq_left (min_le_right _ _)
    · exact hs.2
    · simp [List.countP_eq_length_filter]
    · intro hz
      have hcond : ((sample_without_replacement
          (min (max 10 (matching.length / 2)) matching.length) matching r).1.countP
            (fun idx => alice.getD idx 0 != bob.getD idx 0) = 0 ∧
          0 < min (max 10 (matching.length / 2)) matching.length) := ⟨hz, hsize⟩
      simp only [if_pos hcond]
      rw [qDiv_eq]
      rcases lt_or_le (100 / ((min (max 10 (matching.length / 2)) matching.length : Nat) : ℚ))
          (Rat.divInt 1 2) with hlt | hle
      · rw [if_pos hlt, max_eq_left (le_of_lt hlt)]
      · rw [if_neg (not_lt.mpr hle), max_eq_right hle]
    · intro hz
      have hcond : ¬ ((sample_without_replacement
          (min (max 10 (matching.length / 2)) matching.length) matching r).1.countP
            (fun idx => alice.getD idx 0 != bob.getD idx 0) = 0 ∧
          0 < min (max 10 (matching.length / 2)) matching.length) := by
        intro hc
        exact hz hc.1
      simp only [if_neg hcond, if_pos hsize]
      rw [qMul_eq, qDiv_eq]

theorem claim_C5_qber_estimation_witness :
    (calculate_qber [1, 1, 0] [1, 0, 0] [0, 1, 2] ⟨[], [0, 0, 0]⟩).1.2.2.2 = 3 ∧
      (calculate_qber [1, 1, 0] [1, 0, 0] [0, 1, 2] ⟨[], [0, 0, 0]⟩).1.1 =
        (((calculate_qber [1, 1, 0] [1, 0, 0] [0, 1, 2] ⟨[], [0, 0, 0]⟩).1.2.2.1 : ℚ) /
          ((3 : Nat) : ℚ)) * 100 := by
  have h := (claim_C5_qber_estimation [1, 1, 0] [1, 0, 0] [0, 1, 2] ⟨[], [0, 0, 0]⟩).2
    (by decide)
  have hs : (calculate_qber [1, 1, 0] [1, 0, 0] [0, 1, 2] ⟨[], [0, 0, 0]⟩).1.2.2.2 = 3 := by
    rw [h.1]
    decide
  have hq := h.2.2.2.2.2 (by decide)
  rw [hs] at hq
  exact ⟨hs, hq⟩

lemma qs_getD_succ (l : List ℚ) (k : Nat) : l.getD (k + 1) 0 = l.tail.getD k 0 := by
  cases l <;> simp

lemma qs_getD_zero (l : List ℚ) : l.getD 0 0 = l.headD 0 := by
  cases l <;> rfl

/-- Claim C7: the measured-bits array has the photon list's length, every
photon still flagged transmitted after atmosphere and weather gets its
measurement (from its bit, its preparation basis, and the receiver basis
at the same index, on the next unconsumed draw) written exactly at its
original index, and every other entry stays ⊥. -/
theorem claim_C7_measurement_index_mapping :
    ∀ (photons : List Photon) (bases : List BasisType) (r : Rand),
    photons.length = bases.length →
    (bob_measure photons bases r).1.length = photons.length ∧
    ∀ i, i < photons.length →
      (bob_measure photons bases r).1.getD i none =
        (if (photons.getD i defaultPhoton).is_transmitted then
          some (measure_photon (photons.getD i defaultPhoton).bit
            (photons.getD i defaultPhoton).preparation_basis
            (bases.getD i BasisType.rectilinear)
            (r.qs.getD ((photons.take i).countP (fun p => p.is_transmitted)) 0)).1
         else none)
  | [], [], r, _ => ⟨rfl, fun i hi => absurd hi (by simp)⟩
  | [], _ :: _, r, hlen => by simp at hlen
  | _ :: _, [], r, hlen => by simp at hlen
  | p :: ps, b :: bs, r, hlen => by
      have hlen' : ps.length = bs.length := by simpa using hlen
      by_cases ht : p.is_transmitted = true
      · have ih := claim_C7_measurement_index_mapping ps bs (drawQ r).2 hlen'
        have hunfold : bob_measure (p :: ps) (b :: bs) r =
            (some ((measure_photon p.bit p.preparation_basis b (drawQ r).1).1) ::
              (bob_measure ps bs (drawQ r).2).1, (bob_measure ps bs (drawQ r).2).2) := by
          simp [bob_measure, ht]
        constructor
        · rw [hunfold, List.length_cons, ih.1, List.length_cons]
        · intro i hi
          cases i with
          | zero =>
              rw [hunfold]
              simp only [List.getD_cons_zero, List.take_zero, List.countP_nil, ht, if_true]
              rw [qs_getD_zero]
              rfl
          | succ j =>
              have hj : j < ps.length := by simpa using hi
              rw [hunfold]
              simp only [List.getD_cons_succ]
              rw [ih.2 j hj]
              have hc : ((p :: ps).take (j + 1)).countP (fun p => p.is_transmitted) =
                  (ps.take j).countP (fun p => p.is_transmitted) + 1 := by
                simp [List.take_succ_cons, List.countP_cons, ht]
              rw [hc, qs_getD_succ]
              rfl
      · have ih := claim_C7_measurement_index_mapping ps bs r hlen'
        have hunfold : bob_measure (p :: ps) (b :: bs) r =
            (none :: (bob_measure ps bs r).1, (bob_measure ps bs r).2) := by
          simp [bob_measure, ht]
        constructor
        · rw [hunfold, List.length_cons, ih.1, List.length_cons]
        · intro i hi
          cases i with
          | zero =>
              rw [hunfold]
              simp [ht]
          | succ j =>
              have hj : j < ps.length := by simpa using hi
              rw [hunfold]
              simp only [List.getD_cons_succ]
              rw [ih.2 j hj]
              have hc : ((p :: ps).take (j + 1)).countP (fun p => p.is_transmitted) =
                  (ps.take j).countP (fun p => p.is_transmitted) := by
                simp [List.take_succ_cons, List.countP_cons, ht]
              rw [hc]

theorem claim_C7_measurement_index_mapping_witness :
    (bob_measure [{ Photon.create 1 BasisType.diagonal with is_transmitted := false },
        Photon.create 0 BasisType.rectilinear]
      [BasisType.rectilinear, BasisType.rectilinear] ⟨[Rat.divInt 1 4], []⟩).1.length = 2 ∧
    (bob_measure [{ Photon.create 1 BasisType.diagonal with is_transmitted := false },
        Photon.create 0 BasisType.rectilinear]
      [BasisType.rectilinear, BasisType.rectilinear] ⟨[Rat.divInt 1 4], []⟩).1.getD 0 none =
      none ∧
    (bob_measure [{ Photon.create 1 BasisType.diagonal with is_transmitted := false },
        Photon.create 0 BasisType.rectilinear]
      [BasisType.rectilinear, BasisType.rectilinear] ⟨[Rat.divInt 1 4], []⟩).1.getD 1 none =
      some 0 := by
  have h := claim_C7_measurement_index_mapping
    [{ Photon.create 1 BasisType.diagonal with is_transmitted := false },
      Photon.create 0 BasisType.rectilinear]
    [BasisType.rectilinear, BasisType.rectilinear] ⟨[Rat.divInt 1 4], []⟩ (by decide)
  refine ⟨?_, ?_, ?_⟩
  · rw [h.1]
    decide
  · rw [h.2 0 (by decide)]
    decide
  · rw [h.2 1 (by decide)]
    decide

/-- Claim C10: `intercept_and_resend` preserves the stream length; at
every index whose recorded Eve basis is `None` (not intercepted) the
output holds the original photon record unchanged (bit, preparation
basis, state, transmitted and intercepted flags); at every intercepted
index it holds a fresh photon encoded in Eve's recorded measurement basis
(so its state is derived from its bit and that basis, it is flagged
transmitted as freshly created) with `is_intercepted = true`. -/
theorem claim_C10_intercept_frame :
    ∀ (rate : ℚ) (photons : List Photon) (bases : List BasisType) (r : Rand),
    photons.length = bases.length →
    (intercept_and_resend rate photons bases r).1.1.length = photons.length ∧
    (intercept_and_resend rate photons bases r).1.2.length = photons.length ∧
    ∀ i, i < photons.length →
      ((intercept_and_resend rate photons bases r).1.2.getD i none = none →
        (intercept_and_resend rate photons bases r).1.1.getD i defaultPhoton =
          photons.getD i defaultPhoton) ∧
      (∀ eb, (intercept_and_resend rate photons bases r).1.2.getD i none = some eb →
        (intercept_and_resend rate photons bases r).1.1.getD i defaultPhoton =
          { Photon.create
              ((intercept_and_resend rate photons bases r).1.1.getD i defaultPhoton).bit eb
            with is_intercepted := true })
  | rate, [], [], r, _ => ⟨rfl, rfl, fun i hi => absurd hi (by simp)⟩
  | rate, [], _ :: _, r, hlen => by simp at hlen
  | rate, _ :: _, [], r, hlen => by simp at hlen
  | rate, p :: ps, b :: bs, r, hlen => by
      have hlen' : ps.length = bs.length := by simpa using hlen
      by_cases hq : (drawQ r).1 < rate
      · have ih := claim_C10_intercept_frame rate ps bs (drawQ (drawQ (drawQ r).2).2).2 hlen'
        have hunfold : intercept_and_resend rate (p :: ps) (b :: bs) r =
            (({ Photon.create
                  ((measure_photon p.bit b (random_basis (drawQ (drawQ r).2).1)
                    (drawQ (drawQ (drawQ r).2).2).1).1)
                  (random_basis (drawQ (drawQ r).2).1)
                with is_intercepted := true } ::
                (intercept_and_resend rate ps bs (drawQ (drawQ (drawQ r).2).2).2).1.1,
              some (random_basis (drawQ (drawQ r).2).1) ::
                (intercept_and_resend rate ps bs (drawQ (drawQ (drawQ r).2).2).2).1.2),
             (intercept_and_resend rate ps bs (drawQ (drawQ (drawQ r).2).2).2).2) := by
          simp [intercept_and_resend, hq]
        refine ⟨?_, ?_, ?_⟩
        · rw [hunfold, List.length_cons, ih.1, List.length_cons]
        · rw [hunfold, List.length_cons, ih.2.1, List.length_cons]
        · intro i hi
          cases i with
          | zero =>
              rw [hunfold]
              constructor
              · intro hc
                simp at hc
              · intro eb heb
                simp only [List.getD_cons_zero] at heb ⊢
                have heb' : random_basis (drawQ (drawQ r).2).1 = eb := Option.some.inj heb
                rw [← heb']
                rfl
          | succ j =>
              have hj : j < ps.length := by simpa using hi
              rw [hunfold]
              simpa only [List.getD_cons_succ] using ih.2.2 j hj
      · have ih := claim_C10_intercept_frame rate ps bs (drawQ r).2 hlen'
        have hunfold : intercept_and_resend rate (p :: ps) (b :: bs) r =
            ((p :: (intercept_and_resend rate ps bs (drawQ r).2).1.1,
              none :: (intercept_and_resend rate ps bs (drawQ r).2).1.2),
             (intercept_and_resend rate ps bs (drawQ r).2).2) := by
          simp [intercept_and_resend, hq]
        refine ⟨?_, ?_, ?_⟩
        · rw [hunfold, List.length_cons, ih.1, List.length_cons]
        · rw [hunfold, List.length_cons, ih.2.1, List.length_cons]
        · intro i hi
          cases i with
          | zero =>
              rw [hunfold]
              constructor
              · intro _
                rfl
              · intro eb heb
                simp at heb
          | succ j =>
              have hj : j < ps.length := by simpa using hi
              rw [hunfold]
              simpa only [List.getD_cons_succ] using ih.2.2 j hj

/-- Concrete two-photon run of `intercept_and_resend` (first photon
intercepted, second passed through) used to witness claim C10. -/
def evC10 : (List Photon × List (Option BasisType)) × Rand :=
  intercept_and_resend (Rat.divInt 1 2)
    [Photon.create 1 BasisType.rectilinear, Photon.create 0 BasisType.diagonal]
    [BasisType.rectilinear, BasisType.diagonal]
    ⟨[0, Rat.divInt 3 4, 0, Rat.divInt 3 4], []⟩

theorem claim_C10_intercept_frame_witness :
    evC10.1.2.getD 0 none = some BasisType.diagonal ∧
    evC10.1.1.getD 0 defaultPhoton =
      { Photon.create 0 BasisType.diagonal with is_intercepted := true } ∧
    evC10.1.1.getD 1 defaultPhoton = Photon.create 0 BasisType.diagonal := by
  have h := claim_C10_intercept_frame (Rat.divInt 1 2)
    [Photon.create 1 BasisType.rectilinear, Photon.create 0 BasisType.diagonal]
    [BasisType.rectilinear, BasisType.diagonal]
    ⟨[0, Rat.divInt 3 4, 0, Rat.divInt 3 4], []⟩ (by decide)
  refine ⟨by decide, ?_, ?_⟩
  · have h0 := (h.2.2 0 (by decide)).2 BasisType.diagonal (by decide)
    rw [show evC10.1.1.getD 0 defaultPhoton =
      { Photon.create (evC10.1.1.getD 0 defaultPhoton).bit BasisType.diagonal
        with is_intercepted := true } from h0]
    decide
  · have h1 := (h.2.2 1 (by decide)).1 (by decide)
    rw [show evC10.1.1.getD 1 defaultPhoton =
      [Photon.create 1 BasisType.rectilinear, Photon.create 0 BasisType.diagonal].getD 1
        defaultPhoton from h1]
    decide

lemma headD_nonneg {qs : List ℚ} (h : ∀ q ∈ qs, 0 ≤ q) : 0 ≤ qs.headD 0 := by
  cases qs with
  | nil => simp
  | cons a l => exact h a (by simp)

lemma tail_nonneg {qs : List ℚ} (h : ∀ q ∈ qs, 0 ≤ q) : ∀ q ∈ qs.tail, 0 ≤ q :=
  fun q hq => h q (List.mem_of_mem_tail hq)

/-- With a non-positive drop probability (the situation the driver always
produces) and nonnegative draws, the weather loop drops nothing. -/
lemma weather_drop_nonpos (p : ℚ) : ∀ (l : List (Option Nat)) (r : Rand), p ≤ 0 →
    (∀ q ∈ r.qs, 0 ≤ q) →
    (weather_drop p l r).1.1 = l ∧ (weather_drop p l r).1.2 = 0
  | [], r, _, _ => ⟨rfl, rfl⟩
  | none :: ps, r, hp, hr => by
      have ih := weather_drop_nonpos p ps r hp hr
      have hunfold : weather_drop p (none :: ps) r =
          ((none :: (weather_drop p ps r).1.1, (weather_drop p ps r).1.2),
            (weather_drop p ps r).2) := by
        simp [weather_drop]
      rw [hunfold]
      exact ⟨by rw [ih.1], ih.2⟩
  | some b :: ps, r, hp, hr => by
      have hq0 : 0 ≤ (drawQ r).1 := headD_nonneg hr
      have hnd : ¬ (drawQ r).1 < p := not_lt.mpr (le_trans hp hq0)
      have ih := weather_drop_nonpos p ps (drawQ r).2 hp (tail_nonneg hr)
      have hunfold : weather_drop p (some b :: ps) r =
          ((some b :: (weather_drop p ps (drawQ r).2).1.1,
            (weather_drop p ps (drawQ r).2).1.2), (weather_drop p ps (drawQ r).2).2) := by
        simp [weather_drop, hnd]
      rw [hunfold]
      exact ⟨by rw [ih.1], ih.2⟩

lemma merge_weather_keeps : ∀ (photons : List Photon) (aff : List (Option Nat)),
    (∀ a ∈ aff, a ≠ none) → merge_weather photons aff = photons
  | [], _, _ => rfl
  | p :: ps, aff, haff => by
      by_cases ht : p.is_transmitted = true
      · cases aff with
        | nil =>
            have ih := merge_weather_keeps ps [] (by simp)
            simp [merge_weather, ht, ih]
        | cons a rest =>
            have ha : a.isNone = false := by
              have := haff a (by simp)
              cases a with
              | none => exact absurd rfl this
              | some _ => rfl
            have ih := merge_weather_keeps ps rest (fun x hx => haff x (by simp [hx]))
            simp [merge_weather, ht, ha, ih]
      · have ih := merge_weather_keeps ps aff haff
        simp [merge_weather, ht, ih]

/-- The weather stage of the driver never drops a photon: the bit list it
hands to `apply_weather_effects` contains only survivors, so the computed
base loss rate is 0, the computed weather loss rate is `min 0.95 (0·Lw) = 0`,
and the per-photon drop probability is `0 − 0 = 0`, for every weather
string and every prior loss pattern. -/
lemma weather_stage_no_drop (photons : List Photon) (weather : String) (r : Rand)
    (hr : ∀ q ∈ r.qs, 0 ≤ q) (res : (List Photon × Nat) × Rand)
    (h : apply_weather_effects_stage photons weather r = Except.ok res) :
    res.1.1 = photons ∧ res.1.2 = 0 := by
  by_cases hlen : ((photons.filter (fun p => p.is_transmitted)).map
      (fun p => some p.bit) : List (Option Nat)).length = 0
  · simp [apply_weather_effects_stage, apply_weather_effects, hlen] at h
  · have hcount : ((photons.filter (fun p => p.is_transmitted)).map
        (fun p => some p.bit)).countP (fun p => p.isNone) = 0 := by
      rw [List.countP_eq_zero]
      intro a ha
      obtain ⟨x, _, rfl⟩ := List.mem_map.mp ha
      simp
    have hble : qDiv ((((photons.filter (fun p => p.is_transmitted)).map
        (fun p => some p.bit)).countP (fun p => p.isNone) : ℚ))
        ((((photons.filter (fun p => p.is_transmitted)).map
          (fun p => some p.bit)).length : ℚ)) = 0 := by
      rw [hcount, qDiv_eq]
      simp
    have hdle : qSub (qMin (Rat.divInt 95 100)
        (qMul (qDiv ((((photons.filter (fun p => p.is_transmitted)).map
            (fun p => some p.bit)).countP (fun p => p.isNone) : ℚ))
          ((((photons.filter (fun p => p.is_transmitted)).map
            (fun p => some p.bit)).length : ℚ)))
          (weather_loss_factor weather)))
        (qDiv ((((photons.filter (fun p => p.is_transmitted)).map
            (fun p => some p.bit)).countP (fun p => p.isNone) : ℚ))
          ((((photons.filter (fun p => p.is_transmitted)).map
            (fun p => some p.bit)).length : ℚ))) ≤ 0 := by
      rw [hble, qSub_eq, qMin_eq, qMul_eq]
      simp
    have hd := weather_drop_nonpos _
      ((photons.filter (fun p => p.is_transmitted)).map (fun p => some p.bit)) r hdle hr
    simp only [apply_weather_effects_stage, apply_weather_effects, if_neg hlen,
      Except.ok.injEq] at h
    rw [← h]
    refine ⟨?_, hd.2⟩
    rw [hd.1]
    refine merge_weather_keeps photons _ ?_
    intro a ha
    obtain ⟨x, _, rfl⟩ := List.mem_map.mp ha
    simp

/-- Concrete photon stream for claim C2: one photon already lost to the
atmosphere, one survivor. -/
def photonsC2 : List Photon :=
  [Photon.create 1 BasisType.rectilinear,
    { Photon.create 0 BasisType.diagonal with is_transmitted := false }]

/-- Claim C2 exhibit: on a stream where half the photons are already lost
and the weather is rain, the claimed per-photon drop probability is
`max(0, min(0.95, 0.5·10) − 0.5) = 0.45` and the draw 0.1 would drop the
survivor; but the driver's weather stage keeps every photon (and reports
zero weather losses), because the list it passes contains only survivors
and so its computed base loss rate is 0. -/
theorem claim_C2_weather_stage_code_bug :
    apply_weather_effects_stage photonsC2 "rain" ⟨[Rat.divInt 1 10], []⟩ =
      Except.ok ((photonsC2, 0), ⟨[], []⟩) ∧
    qSub (qMin (Rat.divInt 95 100)
        (qMul (Rat.divInt 1 2) (weather_loss_factor "rain"))) (Rat.divInt 1 2) =
      Rat.divInt 9 20 ∧
    Rat.divInt 1 10 < Rat.divInt 9 20 := by
  refine ⟨?_, by decide, by decide⟩
  decide

/-- Claim C1 exhibit: with `eve_attack_type = "jammed_link"` the driver's
eavesdropper stage behaves identically to `"intercept_resend"` (the
attack-type string is never consulted) and loses no photon, while the
§4.4 jammed-link strategy of attacks.py — selected by `apply_eve_attack`,
which `run_protocol` never calls — loses the photon on the same draw
(0.1 < 0.6). -/
theorem claim_C1_eve_stage_code_bug :
    eve_stage "jammed_link" (Rat.divInt 1 2) [Photon.create 1 BasisType.rectilinear]
        [BasisType.rectilinear] ⟨[Rat.divInt 1 10, Rat.divInt 6 10, Rat.divInt 9 10], []⟩ =
      eve_stage "intercept_resend" (Rat.divInt 1 2) [Photon.create 1 BasisType.rectilinear]
        [BasisType.rectilinear] ⟨[Rat.divInt 1 10, Rat.divInt 6 10, Rat.divInt 9 10], []⟩ ∧
    (eve_stage "jammed_link" (Rat.divInt 1 2) [Photon.create 1 BasisType.rectilinear]
        [BasisType.rectilinear]
        ⟨[Rat.divInt 1 10, Rat.divInt 6 10, Rat.divInt 9 10], []⟩).1.1.length = 1 ∧
    (apply_eve_attack [some 1] ["+"] "jammed_link" (Rat.divInt 1 2)
        ⟨[Rat.divInt 1 10, Rat.divInt 6 10, Rat.divInt 9 10], []⟩).1.1 = [none] := by
  refine ⟨rfl, by decide, by decide⟩

lemma generate_random_bits_nil_tape : ∀ (n : Nat) (ns : List Nat),
    generate_random_bits n ⟨[], ns⟩ = (List.replicate n 0, ⟨[], ns⟩)
  | 0, ns => rfl
  | n + 1, ns => by
      have h0 : (0 : ℚ) < Rat.divInt 1 2 := by decide
      have ih := generate_random_bits_nil_tape n ns
      simp [generate_random_bits, drawQ, ih, h0, List.replicate_succ]

lemma generate_random_bases_nil_tape : ∀ (n : Nat) (ns : List Nat),
    generate_random_bases n ⟨[], ns⟩ = (List.replicate n BasisType.rectilinear, ⟨[], ns⟩)
  | 0, ns => rfl
  | n + 1, ns => by
      have h0 : (0 : ℚ) < Rat.divInt 1 2 := by decide
      have ih := generate_random_bases_nil_tape n ns
      simp [generate_random_bases, random_basis, drawQ, ih, h0, List.replicate_succ]

lemma intercept_rand_nil (rate : ℚ) : ∀ (ph : List Photon) (bs : List BasisType) (ns : List Nat),
    (intercept_and_resend rate ph bs ⟨[], ns⟩).2 = ⟨[], ns⟩
  | [], _, ns => rfl
  | _ :: _, [], ns => rfl
  | p :: ps, b :: bs, ns => by
      have ih := intercept_rand_nil rate ps bs ns
      simp [intercept_and_resend, drawQ, ih]
      split <;> rfl

lemma eve_stage_rand_nil (t : String) (rate : ℚ) (ph : List Photon) (bs : List BasisType)
    (ns : List Nat) : (eve_stage t rate ph bs ⟨[], ns⟩).2 = ⟨[], ns⟩ :=
  intercept_rand_nil rate ph bs ns

lemma transmit_mark_nil_tape (loss err : ℚ) (hl : 0 ≤ loss) :
    ∀ (photons : List Photon) (ns : List Nat),
    transmit_mark loss err photons ⟨[], ns⟩ =
      (photons.map (fun p => { p with is_transmitted := false }), ⟨[], ns⟩)
  | [], ns => rfl
  | p :: ps, ns => by
      have hnd : ¬ loss < ((⟨[], ns⟩ : Rand).qs.headD 0) := by
        simp [not_lt.mpr hl]
      have ih := transmit_mark_nil_tape loss err hl ps ns
      simp [transmit_mark, drawQ, hnd, ih, hl]

lemma filter_map_false : ∀ (photons : List Photon),
    ((photons.map (fun p => { p with is_transmitted := false })).filter
      (fun p => p.is_transmitted)) = []
  | [] => rfl
  | p :: ps => by
      have ih := filter_map_false ps
      simp [List.filter_cons, ih]

/-- With the all-zero tape every photon is lost in the atmosphere
(`0 > total_loss` is false since `total_loss ≥ 0`), so the weather stage
receives an empty bit list and divides by zero. -/
lemma transmit_weather_error (dkm dl : ℚ) (hdl : 0 ≤ dl) (photons : List Photon) (w : String) :
    apply_weather_effects_stage (transmit_photons dkm dl photons ⟨[], []⟩).1 w
      (transmit_photons dkm dl photons ⟨[], []⟩).2 = Except.error "ZeroDivisionError" := by
  have hC : 0 ≤ qMin (Rat.divInt 95 100)
      (qAdd (qAdd dl (Rat.divInt 15 100)) (qMul (Rat.divInt 5 100) 0)) := by
    rw [qMin_eq, qAdd_eq, qAdd_eq, qMul_eq]
    have h95 : (0 : ℚ) ≤ Rat.divInt 95 100 := by decide
    have h15 : (0 : ℚ) ≤ Rat.divInt 15 100 := by decide
    refine le_min h95 ?_
    rw [mul_zero, add_zero]
    exact add_nonneg hdl h15
  have heq : transmit_photons dkm dl photons ⟨[], []⟩ =
      (photons.map (fun p => { p with is_transmitted := false }), ⟨[], []⟩) :=
    transmit_mark_nil_tape _ (atmospheric_error_rate dkm) hC photons []
  rw [heq]
  simp [apply_weather_effects_stage, apply_weather_effects, filter_map_false]

/-- With positive probability the atmosphere loses every photon; on that
outcome (modelled by the all-zero tape) `run_protocol` propagates
weather.py's `ZeroDivisionError` instead of returning a trace, for every
configuration. -/
lemma run_protocol_all_lost (cfg : Config) (hdl : 0 ≤ cfg.distance_loss) :
    run_protocol cfg ⟨[], []⟩ = Except.error "ZeroDivisionError" := by
  have hbits := generate_random_bits_nil_tape cfg.num_bits []
  have hbases := generate_random_bases_nil_tape cfg.num_bits []
  by_cases he : cfg.eve_active
  · simp only [run_protocol, hbits, hbases, he, if_true, eve_stage_rand_nil,
      transmit_weather_error cfg.distance_km cfg.distance_loss hdl _ cfg.weather, Except.map]
  · simp only [run_protocol, hbits, hbases, he, if_false, Bool.false_eq_true,
      transmit_weather_error cfg.distance_km cfg.distance_loss hdl _ cfg.weather, Except.map]

/-- Claim C3 exhibit: a valid configuration (64 bits, 500 km, clear
weather, no Eve) and a random outcome (every photon lost in the
atmosphere) on which `run_protocol` raises `ZeroDivisionError` in
weather.py's `apply_weather_effects` instead of returning a trace. -/
theorem claim_C3_run_protocol_code_bug :
    run_protocol
      { num_bits := 64, eve_active := false, eve_interception_rate := Rat.divInt 1 2,
        eve_attack_type := "intercept_resend", distance_km := 500,
        distance_loss := Rat.divInt 1 20, weather := "clear" } ⟨[], []⟩ =
      Except.error "ZeroDivisionError" :=
  run_protocol_all_lost _ (by decide)

end QuantumSatLink
